import Mathlib

/-!
Verification of the first-party logic of `transcribe.py`: the segment
clipper/padder, the transcript assembler, the `sec2hmmssms` time formatter and
the `make_ass` subtitle serializer.  Times are modelled as exact rationals;
Python's `round` builtin and the `%.0f` float format both round half to even,
modelled by `pythonRound` below.
-/

/-- A detected activity segment, in seconds, as produced by the external
voice-activity detector (`clip` in the loop of `main`). -/
structure Segment where
  start : ℚ
  «end» : ℚ
  deriving DecidableEq

/-- One entry of the output transcript: padded-and-offset start (seconds),
original unpadded end (seconds), recognized text. -/
structure TranscriptEntry where
  start : ℚ
  «end» : ℚ
  text : String
  deriving DecidableEq

/-- Python's builtin `round` applied to an exact value: round half to even. -/
def pythonRound (q : ℚ) : ℤ :=
  let f : ℤ := ⌊q⌋
  if q - f < 1/2 then f
  else if 1/2 < q - f then f + 1
  else if f % 2 = 0 then f else f + 1

/-- Python's 02d format: zero-pad to a minimum width of two digits. -/
def pad2 (z : ℤ) : String :=
  if 0 ≤ z ∧ z < 10 then "0" ++ toString z else toString z

/-- `sec2hmmssms` from `transcribe.py` (lines 69-87): `divmod(sec, 60)` then
`divmod(m, 60)`, centiseconds from the fractional part of the seconds
component, and formatting in which the seconds component is itself rounded to
an integer by the `02.0f` format. -/
def sec2hmmssms (sec : ℚ) : String :=
  let m₁ : ℤ := ⌊sec / 60⌋
  let s : ℚ := sec - 60 * m₁
  let h : ℤ := ⌊(m₁ : ℚ) / 60⌋
  let m : ℤ := m₁ - 60 * h
  let ms : ℤ := pythonRound ((s - (⌊s⌋ : ℚ)) * 100)
  toString h ++ ":" ++ pad2 m ++ ":" ++ pad2 (pythonRound s) ++ "." ++ pad2 ms

/-- Padded clip start in milliseconds (`transcribe.py` line 45):
`clip.start*1000 - 1000 if clip.start > 1 else 0`. -/
def clip_start (clip : Segment) : ℚ :=
  if clip.start > 1 then clip.start * 1000 - 1000 else 0

/-- Padded clip end in milliseconds (`transcribe.py` line 47):
`clip.end*1000 + 1000 if clip.end < duration - 1 else duration*1000`. -/
def clip_end (duration : ℚ) (clip : Segment) : ℚ :=
  if clip.«end» < duration - 1 then clip.«end» * 1000 + 1000 else duration * 1000

/-- Python's `str.strip`: remove leading and trailing whitespace. -/
def strip (s : String) : String :=
  ⟨List.reverse (List.dropWhile Char.isWhitespace
    (List.reverse (List.dropWhile Char.isWhitespace s.data)))⟩

/-- The transcription loop of `main` (`transcribe.py` lines 42-55).  The
external recognizer is abstracted as `model`, a function from the padded clip
range in milliseconds to the raw recognized text; its result is stripped, and
only non-empty texts yield an entry whose start is `clip_start/1000 + 0.9`
seconds and whose end is the original unpadded segment end. -/
def transcribeClips (duration : ℚ) (model : ℚ → ℚ → String) :
    List Segment → List TranscriptEntry
  | [] => []
  | clip :: rest =>
    let text := strip (model (clip_start clip) (clip_end duration clip))
    if text ≠ "" then
      { start := clip_start clip / 1000 + 9/10, «end» := clip.«end», text := text } ::
        transcribeClips duration model rest
    else
      transcribeClips duration model rest

/-- The fixed subtitle header of `make_ass` (`transcribe.py` lines 97-110). -/
def assHeader : String :=
  "[Script Info]\nTitle: Default Aegisub file\nScriptType: v4.00+\nWrapStyle: 0\nScaledBorderAndShadow: yes\nYCbCr Matrix: None\n\n[V4+ Styles]\nFormat: Name, Fontname, Fontsize, PrimaryColour, SecondaryColour, OutlineColour, BackColour, Bold, Italic, Underline, StrikeOut, ScaleX, ScaleY, Spacing, Angle, BorderStyle, Outline, Shadow, Alignment, MarginL, MarginR, MarginV, Encoding\nStyle: English,Arial,14,&H00FFFFFF,&H000000FF,&H00000000,&H00000000,0,0,0,0,100,100,0,0,1,0.5,0,2,10,10,10,1\n\n[Events]\nFormat: Layer, Start, End, Style, Name, MarginL, MarginR, MarginV, Effect, Text\n"

/-- One Dialogue line of the subtitle (`transcribe.py` line 118). -/
def dialogueLine (tr : TranscriptEntry) : String :=
  "Dialogue: 0," ++ sec2hmmssms tr.start ++ "," ++ sec2hmmssms tr.«end» ++
    ",English,,0,0,0,," ++ tr.text ++ "\n"

/-- `make_ass` (`transcribe.py` lines 90-123) on the parsed transcript: start
from the fixed header and append one Dialogue line per entry, in order. -/
def make_ass (trs : List TranscriptEntry) : String :=
  trs.foldl (fun subtitle tr => subtitle ++ dialogueLine tr) assHeader

/-! ### Helper lemmas -/

lemma floor_q (q : ℚ) (n : ℤ) (h1 : (n : ℚ) ≤ q) (h2 : q < n + 1) : ⌊q⌋ = n :=
  Int.floor_eq_iff.mpr ⟨h1, h2⟩

lemma rat_floor_div_nat (q : ℚ) (n : ℕ) (hn : 0 < n) : ⌊q / (n : ℚ)⌋ = ⌊q⌋ / (n : ℤ) := by
  have hn' : (0 : ℚ) < (n : ℚ) := by exact_mod_cast hn
  have hnz : (n : ℤ) ≠ 0 := by exact_mod_cast hn.ne'
  have h0 : (0 : ℤ) < (n : ℤ) := by exact_mod_cast hn
  refine floor_q _ _ ?_ ?_
  · rw [le_div_iff₀ hn']
    have h1 : (⌊q⌋ / (n : ℤ)) * (n : ℤ) ≤ ⌊q⌋ := Int.ediv_mul_le ⌊q⌋ hnz
    have h2 : ((⌊q⌋ / (n : ℤ) * (n : ℤ) : ℤ) : ℚ) ≤ (⌊q⌋ : ℚ) := by exact_mod_cast h1
    have h3 : (⌊q⌋ : ℚ) ≤ q := Int.floor_le q
    push_cast at h2 ⊢
    linarith
  · rw [div_lt_iff₀ hn']
    have h1 : ⌊q⌋ < (⌊q⌋ / (n : ℤ) + 1) * (n : ℤ) := Int.lt_ediv_add_one_mul_self ⌊q⌋ h0
    have h2 : ((⌊q⌋ : ℤ) : ℚ) < (((⌊q⌋ / (n : ℤ) + 1) * (n : ℤ) : ℤ) : ℚ) := by exact_mod_cast h1
    have h3 : q < (⌊q⌋ : ℚ) + 1 := Int.lt_floor_add_one q
    have h4 : ((⌊q⌋ : ℚ) + 1) ≤ (((⌊q⌋ / (n : ℤ) + 1) * (n : ℤ) : ℤ) : ℚ) := by
      have : ⌊q⌋ + 1 ≤ (⌊q⌋ / (n : ℤ) + 1) * (n : ℤ) := h1
      exact_mod_cast this
    push_cast at h4 ⊢
    linarith

lemma floor_div_sixty (q : ℚ) : ⌊q / 60⌋ = ⌊q⌋ / 60 := by
  have h := rat_floor_div_nat q 60 (by norm_num)
  push_cast at h
  exact h

lemma floor_int_div_sixty (z : ℤ) : ⌊((z : ℚ) / 60)⌋ = z / 60 := by
  have h := Rat.floor_intCast_div_natCast z 60
  push_cast at h
  exact h

lemma pythonRound_low (q : ℚ) (n : ℤ) (h1 : (n : ℚ) ≤ q) (h2 : q < (n : ℚ) + 1/2) :
    pythonRound q = n := by
  have hf : ⌊q⌋ = n := floor_q q n h1 (by linarith)
  simp only [pythonRound, hf]
  split_ifs with hA hB hC
  · rfl
  · exact absurd (by linarith : q - (n : ℚ) < 1/2) hA
  · exact absurd (by linarith : q - (n : ℚ) < 1/2) hA
  · exact absurd (by linarith : q - (n : ℚ) < 1/2) hA

lemma pythonRound_high (q : ℚ) (n : ℤ) (h1 : (n : ℚ) + 1/2 < q) (h2 : q < (n : ℚ) + 1) :
    pythonRound q = n + 1 := by
  have hf : ⌊q⌋ = n := floor_q q n (by linarith) h2
  simp only [pythonRound, hf]
  split_ifs with hA hB hC
  · exact absurd hA (by push_neg; linarith)
  · rfl
  · exact absurd (by linarith : (1 : ℚ)/2 < q - n) hB
  · exact absurd (by linarith : (1 : ℚ)/2 < q - n) hB

lemma pythonRound_cases (q : ℚ) : pythonRound q = ⌊q⌋ ∨ pythonRound q = ⌊q⌋ + 1 := by
  simp only [pythonRound]
  split_ifs <;> simp

/-- The formatter's divmod chain, re-expressed over the standard hour / minute
/ second / centisecond decomposition of the input. -/
lemma sec2hmmssms_decomp (sec : ℚ) :
    sec2hmmssms sec =
      toString (⌊sec⌋ / 3600) ++ ":" ++ pad2 (⌊sec⌋ / 60 % 60) ++ ":" ++
        pad2 (pythonRound (sec - 60 * ((⌊sec⌋ / 60 : ℤ) : ℚ))) ++ "." ++
        pad2 (pythonRound ((sec - (⌊sec⌋ : ℚ)) * 100)) := by
  simp only [sec2hmmssms]
  rw [floor_int_div_sixty, floor_div_sixty]
  have hh : ⌊sec⌋ / 60 / 60 = ⌊sec⌋ / 3600 := by omega
  have hm : ⌊sec⌋ / 60 - 60 * (⌊sec⌋ / 60 / 60) = ⌊sec⌋ / 60 % 60 := by omega
  rw [hm, hh]
  have hs : ⌊sec - 60 * ((⌊sec⌋ / 60 : ℤ) : ℚ)⌋ = ⌊sec⌋ - 60 * (⌊sec⌋ / 60) := by
    have : sec - 60 * ((⌊sec⌋ / 60 : ℤ) : ℚ) = sec - ((60 * (⌊sec⌋ / 60) : ℤ) : ℚ) := by
      push_cast
      ring
    rw [this, Int.floor_sub_int]
  rw [hs]
  have hfrac : sec - 60 * ((⌊sec⌋ / 60 : ℤ) : ℚ) - ((⌊sec⌋ - 60 * (⌊sec⌋ / 60) : ℤ) : ℚ) =
      sec - (⌊sec⌋ : ℚ) := by
    push_cast
    ring
  rw [hfrac]

lemma pythonRound_148339 : pythonRound (148339/5000 : ℚ) = 30 := by
  have h := pythonRound_high (148339/5000 : ℚ) 29 (by norm_num) (by norm_num)
  norm_num at h
  exact h

lemma pythonRound_3339 : pythonRound (3339/50 : ℚ) = 67 := by
  have h := pythonRound_high (3339/50 : ℚ) 66 (by norm_num) (by norm_num)
  norm_num at h
  exact h

/-- Concrete evaluation: 209.6678 seconds formats to `0:03:30.67`. -/
lemma sec2hmmssms_eval_209 : sec2hmmssms (1048339/5000) = "0:03:30.67" := by
  rw [sec2hmmssms_decomp]
  have hf : ⌊(1048339/5000 : ℚ)⌋ = 209 := floor_q _ _ (by norm_num) (by norm_num)
  rw [hf]
  norm_num
  rw [pythonRound_148339, pythonRound_3339]
  decide

lemma pythonRound_zero : pythonRound (0 : ℚ) = 0 :=
  pythonRound_low (0 : ℚ) 0 (by norm_num) (by norm_num)

lemma pythonRound_sixty : pythonRound (60 : ℚ) = 60 :=
  pythonRound_low (60 : ℚ) 60 (by norm_num) (by norm_num)

lemma pythonRound_298_5 : pythonRound (298/5 : ℚ) = 60 := by
  have h := pythonRound_high (298/5 : ℚ) 59 (by norm_num) (by norm_num)
  norm_num at h
  exact h

lemma pythonRound_14999_250 : pythonRound (14999/250 : ℚ) = 60 := by
  have h := pythonRound_high (14999/250 : ℚ) 59 (by norm_num) (by norm_num)
  norm_num at h
  exact h

lemma pythonRound_498_5 : pythonRound (498/5 : ℚ) = 100 := by
  have h := pythonRound_high (498/5 : ℚ) 99 (by norm_num) (by norm_num)
  norm_num at h
  exact h

/-- Concrete evaluation: 60 seconds formats to `0:01:00.00`. -/
lemma sec2hmmssms_eval_60 : sec2hmmssms 60 = "0:01:00.00" := by
  rw [sec2hmmssms_decomp]
  have hf : ⌊(60 : ℚ)⌋ = 60 := floor_q _ _ (by norm_num) (by norm_num)
  rw [hf]
  norm_num
  rw [pythonRound_zero]
  decide

/-- Concrete evaluation: 0 seconds formats to `0:00:00.00`. -/
lemma sec2hmmssms_eval_0 : sec2hmmssms 0 = "0:00:00.00" := by
  rw [sec2hmmssms_decomp]
  have hf : ⌊(0 : ℚ)⌋ = 0 := floor_q _ _ (by norm_num) (by norm_num)
  rw [hf]
  norm_num
  rw [pythonRound_zero]
  decide

/-- Concrete evaluation: 59.6 seconds formats to `0:00:60.60`. -/
lemma sec2hmmssms_eval_596 : sec2hmmssms (298/5) = "0:00:60.60" := by
  rw [sec2hmmssms_decomp]
  have hf : ⌊(298/5 : ℚ)⌋ = 59 := floor_q _ _ (by norm_num) (by norm_num)
  rw [hf]
  norm_num
  rw [pythonRound_298_5, pythonRound_sixty]
  decide

/-- Concrete evaluation: 59.996 seconds formats to `0:00:60.100`. -/
lemma sec2hmmssms_eval_59996 : sec2hmmssms (14999/250) = "0:00:60.100" := by
  rw [sec2hmmssms_decomp]
  have hf : ⌊(14999/250 : ℚ)⌋ = 59 := floor_q _ _ (by norm_num) (by norm_num)
  rw [hf]
  norm_num
  rw [pythonRound_14999_250, pythonRound_498_5]
  decide

lemma pythonRound_bounds (q : ℚ) (a b : ℤ) (h1 : (a : ℚ) ≤ q) (h2 : q < (b : ℚ)) :
    a ≤ pythonRound q ∧ pythonRound q ≤ b := by
  have hfl : a ≤ ⌊q⌋ := Int.le_floor.mpr h1
  have hfu : ⌊q⌋ < b := Int.floor_lt.mpr h2
  rcases pythonRound_cases q with h | h <;> rw [h] <;> omega

/-! ### Claim theorems for the time formatter -/

/-- C3: the time formatter returns exactly `0:03:30.67` on 209.6678,
`0:01:00.00` on 60 and `0:00:00.00` on 0. -/
theorem sec2hmmssms_examples :
    sec2hmmssms (1048339/5000) = "0:03:30.67" ∧ sec2hmmssms 60 = "0:01:00.00" ∧
      sec2hmmssms 0 = "0:00:00.00" :=
  ⟨sec2hmmssms_eval_209, sec2hmmssms_eval_60, sec2hmmssms_eval_0⟩

/-- C4 counterexample: at 209.6678 seconds the integral seconds component is
29, so the claimed `H:MM:SS.CC` with `SS` carrying the integral seconds would
be `0:03:29.67`; the code instead rounds the seconds component and prints
`0:03:30.67`. -/
theorem sec2hmmssms_integral_seconds_counterexample :
    sec2hmmssms (1048339/5000) = "0:03:30.67" ∧ "0:03:30.67" ≠ "0:03:29.67" :=
  ⟨sec2hmmssms_eval_209, by decide⟩

/-- C4 (amended): for nonnegative input below 10 hours, the output is
`H:MM:SS.CC` where `H` is the hour count (unpadded, a single digit here),
`MM` the zero-padded minute count, `SS` the seconds component rounded
half-to-even to an integer (not its integral part), and `CC` the fractional
part rounded half-to-even to centiseconds, which ranges up to 100 (three
digits) rather than staying below two digits. -/
theorem sec2hmmssms_format_decomposition (sec : ℚ) (h0 : 0 ≤ sec) (h1 : sec < 36000) :
    sec2hmmssms sec =
      toString (⌊sec⌋ / 3600) ++ ":" ++ pad2 (⌊sec⌋ / 60 % 60) ++ ":" ++
        pad2 (pythonRound (sec - 60 * ((⌊sec⌋ / 60 : ℤ) : ℚ))) ++ "." ++
        pad2 (pythonRound ((sec - (⌊sec⌋ : ℚ)) * 100)) ∧
      0 ≤ ⌊sec⌋ / 3600 ∧ ⌊sec⌋ / 3600 ≤ 9 ∧
      0 ≤ ⌊sec⌋ / 60 % 60 ∧ ⌊sec⌋ / 60 % 60 < 60 ∧
      0 ≤ pythonRound (sec - 60 * ((⌊sec⌋ / 60 : ℤ) : ℚ)) ∧
      pythonRound (sec - 60 * ((⌊sec⌋ / 60 : ℤ) : ℚ)) ≤ 60 ∧
      0 ≤ pythonRound ((sec - (⌊sec⌋ : ℚ)) * 100) ∧
      pythonRound ((sec - (⌊sec⌋ : ℚ)) * 100) ≤ 100 := by
  have hfl0 : 0 ≤ ⌊sec⌋ := Int.floor_nonneg.mpr h0
  have hflu : ⌊sec⌋ < 36000 := Int.floor_lt.mpr (by exact_mod_cast h1)
  have hs0 : (0 : ℚ) ≤ sec - 60 * ((⌊sec⌋ / 60 : ℤ) : ℚ) := by
    have h := Int.sub_floor_div_mul_nonneg sec (by norm_num : (0 : ℚ) < 60)
    rw [floor_div_sixty] at h
    linarith
  have hs60 : sec - 60 * ((⌊sec⌋ / 60 : ℤ) : ℚ) < 60 := by
    have h := Int.sub_floor_div_mul_lt sec (by norm_num : (0 : ℚ) < 60)
    rw [floor_div_sixty] at h
    linarith
  have hc0 : (0 : ℚ) ≤ (sec - (⌊sec⌋ : ℚ)) * 100 := by
    have := Int.floor_le sec
    nlinarith
  have hc100 : (sec - (⌊sec⌋ : ℚ)) * 100 < 100 := by
    have := Int.lt_floor_add_one sec
    nlinarith
  have hsB := pythonRound_bounds (sec - 60 * ((⌊sec⌋ / 60 : ℤ) : ℚ)) 0 60
    (by exact_mod_cast hs0) (by exact_mod_cast hs60)
  have hcB := pythonRound_bounds ((sec - (⌊sec⌋ : ℚ)) * 100) 0 100
    (by exact_mod_cast hc0) (by exact_mod_cast hc100)
  refine ⟨sec2hmmssms_decomp sec, by omega, by omega, by omega, by omega,
    hsB.1, hsB.2, hcB.1, hcB.2⟩

/-- C4 witness: the decomposition applied to the concrete input 209.6678. -/
theorem sec2hmmssms_format_decomposition_witness :
    (0 : ℚ) ≤ 1048339/5000 ∧ (1048339/5000 : ℚ) < 36000 ∧
      (sec2hmmssms (1048339/5000) =
        toString (⌊(1048339/5000 : ℚ)⌋ / 3600) ++ ":" ++
          pad2 (⌊(1048339/5000 : ℚ)⌋ / 60 % 60) ++ ":" ++
          pad2 (pythonRound (1048339/5000 - 60 * ((⌊(1048339/5000 : ℚ)⌋ / 60 : ℤ) : ℚ))) ++ "." ++
          pad2 (pythonRound ((1048339/5000 - (⌊(1048339/5000 : ℚ)⌋ : ℚ)) * 100)) ∧
        0 ≤ ⌊(1048339/5000 : ℚ)⌋ / 3600 ∧ ⌊(1048339/5000 : ℚ)⌋ / 3600 ≤ 9 ∧
        0 ≤ ⌊(1048339/5000 : ℚ)⌋ / 60 % 60 ∧ ⌊(1048339/5000 : ℚ)⌋ / 60 % 60 < 60 ∧
        0 ≤ pythonRound (1048339/5000 - 60 * ((⌊(1048339/5000 : ℚ)⌋ / 60 : ℤ) : ℚ)) ∧
        pythonRound (1048339/5000 - 60 * ((⌊(1048339/5000 : ℚ)⌋ / 60 : ℤ) : ℚ)) ≤ 60 ∧
        0 ≤ pythonRound ((1048339/5000 - (⌊(1048339/5000 : ℚ)⌋ : ℚ)) * 100) ∧
        pythonRound ((1048339/5000 - (⌊(1048339/5000 : ℚ)⌋ : ℚ)) * 100) ≤ 100) :=
  ⟨by norm_num, by norm_num,
    sec2hmmssms_format_decomposition (1048339/5000) (by norm_num) (by norm_num)⟩

/-- C7: whenever the seconds component of the input lies in [59.5, 60), the
formatter rounds it up and prints a seconds field of `60`, leaving the
minutes field at the un-carried value `⌊sec⌋ / 60 % 60`. -/
theorem seconds_field_sixty_no_carry (sec : ℚ)
    (h : 119/2 ≤ sec - 60 * ((⌊sec⌋ / 60 : ℤ) : ℚ)) :
    sec2hmmssms sec =
      toString (⌊sec⌋ / 3600) ++ ":" ++ pad2 (⌊sec⌋ / 60 % 60) ++ ":" ++ "60" ++ "." ++
        pad2 (pythonRound ((sec - (⌊sec⌋ : ℚ)) * 100)) := by
  have hs60 : sec - 60 * ((⌊sec⌋ / 60 : ℤ) : ℚ) < 60 := by
    have h' := Int.sub_floor_div_mul_lt sec (by norm_num : (0 : ℚ) < 60)
    rw [floor_div_sixty] at h'
    linarith
  have h60 : pythonRound (sec - 60 * ((⌊sec⌋ / 60 : ℤ) : ℚ)) = 60 := by
    have hfs : ⌊sec - 60 * ((⌊sec⌋ / 60 : ℤ) : ℚ)⌋ = 59 :=
      floor_q _ _ (by push_cast; linarith) (by push_cast; linarith)
    simp only [pythonRound, hfs]
    split_ifs with hA hB hC
    · exact absurd hA (by push_cast; push_neg; linarith)
    · norm_num
    · exact absurd hC (by decide)
    · norm_num
  rw [sec2hmmssms_decomp, h60]
  have hp : pad2 (60 : ℤ) = "60" := by decide
  rw [hp]

/-- C7 witness: at 59.6 seconds the hypothesis holds and, evaluating, the
output is `0:00:60.60`, which indeed shows `:60.` with no minute carry. -/
theorem seconds_field_sixty_no_carry_witness :
    (119/2 ≤ (298/5 : ℚ) - 60 * ((⌊(298/5 : ℚ)⌋ / 60 : ℤ) : ℚ)) ∧
      sec2hmmssms (298/5) =
        toString (⌊(298/5 : ℚ)⌋ / 3600) ++ ":" ++ pad2 (⌊(298/5 : ℚ)⌋ / 60 % 60) ++ ":" ++
          "60" ++ "." ++ pad2 (pythonRound ((298/5 - (⌊(298/5 : ℚ)⌋ : ℚ)) * 100)) := by
  have hf : ⌊(298/5 : ℚ)⌋ = 59 := floor_q _ _ (by norm_num) (by norm_num)
  have hhyp : 119/2 ≤ (298/5 : ℚ) - 60 * ((⌊(298/5 : ℚ)⌋ / 60 : ℤ) : ℚ) := by
    rw [hf]
    norm_num
  exact ⟨hhyp, seconds_field_sixty_no_carry (298/5) hhyp⟩

/-- C10: at 59.996 seconds the fractional part rounds to 100 centiseconds, so
the centisecond field is the three-digit string `100` and the output
`0:00:60.100` is longer than the fixed-width `H:MM:SS.CC` form (10
characters). -/
theorem centiseconds_field_hundred :
    sec2hmmssms (14999/250) = "0:00:60.100" ∧
      (sec2hmmssms (14999/250)).length = 11 ∧ ("0:00:00.00" : String).length = 10 := by
  refine ⟨sec2hmmssms_eval_59996, ?_, by decide⟩
  rw [sec2hmmssms_eval_59996]
  decide

/-! ### Claim theorems for the clipper and the transcript assembler -/

/-- C1: the clipper pads the start by one second when `start > 1` and clamps
it to 0 when `start <= 1`; it pads the end by one second when
`end < duration - 1` and clamps it to the full duration otherwise. -/
theorem clipper_padding_clamping (clip : Segment) (D : ℚ) (h0 : 0 ≤ clip.start) :
    (1 < clip.start → clip_start clip = clip.start * 1000 - 1000) ∧
    (clip.start ≤ 1 → clip_start clip = 0) ∧
    (clip.«end» < D - 1 → clip_end D clip = clip.«end» * 1000 + 1000) ∧
    (D - 1 ≤ clip.«end» → clip_end D clip = D * 1000) := by
  refine ⟨fun h => ?_, fun h => ?_, fun h => ?_, fun h => ?_⟩
  · rw [clip_start, if_pos h]
  · rw [clip_start, if_neg (not_lt.mpr h)]
  · rw [clip_end, if_pos h]
  · rw [clip_end, if_neg (not_lt.mpr h)]

/-- C1 witness: concrete clips on a 10-second waveform, one on each side of
each boundary. -/
theorem clipper_padding_clamping_witness :
    clip_start (Segment.mk 2 8) = 1000 ∧ clip_start (Segment.mk (1/2) 8) = 0 ∧
      clip_end 10 (Segment.mk 2 8) = 9000 ∧ clip_end 10 (Segment.mk 2 (19/2)) = 10000 := by
  refine ⟨?_, ?_, ?_, ?_⟩
  · have h := (clipper_padding_clamping (Segment.mk 2 8) 10 (by norm_num)).1 (by norm_num)
    rw [h]
    norm_num
  · exact (clipper_padding_clamping (Segment.mk (1/2) 8) 10 (by norm_num)).2.1 (by norm_num)
  · have h := (clipper_padding_clamping (Segment.mk 2 8) 10 (by norm_num)).2.2.1 (by norm_num)
    rw [h]
    norm_num
  · have h := (clipper_padding_clamping (Segment.mk 2 (19/2)) 10 (by norm_num)).2.2.2 (by norm_num)
    rw [h]
    norm_num

/-- C6: for any segment with nonnegative start and any nonnegative duration,
clamping yields a range within the waveform bounds. -/
theorem clip_range_within_bounds (clip : Segment) (D : ℚ) (h0 : 0 ≤ clip.start)
    (hD : 0 ≤ D) : 0 ≤ clip_start clip ∧ clip_end D clip ≤ D * 1000 := by
  constructor
  · rw [clip_start]
    split_ifs with h
    · linarith
    · linarith
  · rw [clip_end]
    split_ifs with h
    · linarith
    · linarith

/-- C6 witness: a segment whose times exceed the (corrupt, short) 1-second
duration still clamps into bounds. -/
theorem clip_range_within_bounds_witness :
    0 ≤ clip_start (Segment.mk 2 8) ∧ clip_end 1 (Segment.mk 2 8) ≤ 1 * 1000 :=
  clip_range_within_bounds (Segment.mk 2 8) 1 (by norm_num) (by norm_num)

lemma clip_start_2_8 : clip_start (Segment.mk 2 8) = 1000 := by
  rw [clip_start, if_pos (by norm_num : (1 : ℚ) < (Segment.mk 2 8).start)]
  norm_num

lemma clip_end_10_2_8 : clip_end 10 (Segment.mk 2 8) = 9000 := by
  rw [clip_end, if_pos (by norm_num : (Segment.mk 2 8).«end» < (10 : ℚ) - 1)]
  norm_num

/-- The end-to-end scenario of the spec: a 10-second waveform, one detected
segment from 2.0 to 8.0, and a recognizer returning `"hello"`. -/
lemma transcribeClips_example :
    transcribeClips 10 (fun _ _ => "hello") [Segment.mk 2 8] =
      [TranscriptEntry.mk (19/10) 8 "hello"] := by
  simp only [transcribeClips, clip_start_2_8, clip_end_10_2_8]
  rw [if_pos (by decide : strip "hello" ≠ "")]
  have hs : strip "hello" = "hello" := by decide
  rw [hs]
  norm_num

/-- C2: the output is exactly the non-empty-text segments mapped to entries
whose start is `clip_start/1000 + 0.9` seconds and whose end is the original
unpadded segment end; on the spec's end-to-end scenario the output is exactly
`[{1.9, 8.0, "hello"}]`. -/
theorem transcript_entry_fields :
    (∀ (D : ℚ) (model : ℚ → ℚ → String) (clips : List Segment),
        transcribeClips D model clips =
          (clips.filter (fun c => !(strip (model (clip_start c) (clip_end D c)) == ""))).map
            (fun clip => TranscriptEntry.mk (clip_start clip / 1000 + 9/10) clip.«end»
              (strip (model (clip_start clip) (clip_end D clip))))) ∧
      transcribeClips 10 (fun _ _ => "hello") [Segment.mk 2 8] =
        [TranscriptEntry.mk (19/10) 8 "hello"] := by
  constructor
  · intro D model clips
    induction clips with
    | nil => simp [transcribeClips]
    | cons c cs ih =>
      simp only [transcribeClips, List.filter_cons]
      by_cases h : strip (model (clip_start c) (clip_end D c)) = ""
      · rw [if_neg (not_not_intro h)]
        have hb : (!(strip (model (clip_start c) (clip_end D c)) == "")) = false := by
          simp [h]
        rw [hb]
        simpa using ih
      · rw [if_pos h]
        have hb : (!(strip (model (clip_start c) (clip_end D c)) == "")) = true := by
          simp [h]
        rw [hb]
        simp [ih]
  · exact transcribeClips_example

lemma transcribeClips_length (D : ℚ) (model : ℚ → ℚ → String) (clips : List Segment) :
    (transcribeClips D model clips).length =
      clips.countP (fun c => !(strip (model (clip_start c) (clip_end D c)) == "")) := by
  induction clips with
  | nil => simp [transcribeClips]
  | cons c cs ih =>
    simp only [transcribeClips, List.countP_cons]
    by_cases h : strip (model (clip_start c) (clip_end D c)) ≠ ""
    · rw [if_pos h]
      have hb : (!(strip (model (clip_start c) (clip_end D c)) == "")) = true := by
        simp [h]
      rw [List.length_cons, ih, hb]
      simp
    · rw [if_neg h]
      push_neg at h
      have hb : (!(strip (model (clip_start c) (clip_end D c)) == "")) = false := by
        simp [h]
      rw [ih, hb]
      simp

/-- C5: stripped-empty recognitions are discarded, so every output entry has
non-empty text, and a segment list with exactly one empty-text segment yields
an output one entry shorter than the input. -/
theorem empty_text_segments_skipped :
    (∀ (D : ℚ) (model : ℚ → ℚ → String) (clips : List Segment) (e : TranscriptEntry),
        e ∈ transcribeClips D model clips → e.text ≠ "") ∧
      ∀ (D : ℚ) (model : ℚ → ℚ → String) (clips : List Segment),
        clips.countP (fun c => strip (model (clip_start c) (clip_end D c)) == "") = 1 →
        (transcribeClips D model clips).length = clips.length - 1 := by
  constructor
  · intro D model clips
    induction clips with
    | nil =>
      intro e he
      simp [transcribeClips] at he
    | cons c cs ih =>
      intro e he
      simp only [transcribeClips] at he
      by_cases h : strip (model (clip_start c) (clip_end D c)) ≠ ""
      · rw [if_pos h] at he
        rcases List.mem_cons.mp he with rfl | hmem
        · exact h
        · exact ih e hmem
      · rw [if_neg h] at he
        exact ih e he
  · intro D model clips hone
    have hlen := transcribeClips_length D model clips
    have hsplit := List.length_eq_countP_add_countP
      (fun c => strip (model (clip_start c) (clip_end D c)) == "") clips
    have heq : (fun c => decide ¬((strip (model (clip_start c) (clip_end D c)) == "") = true)) =
        (fun c : Segment => !(strip (model (clip_start c) (clip_end D c)) == "")) := by
      funext c
      by_cases h : strip (model (clip_start c) (clip_end D c)) = ""
      · simp [h]
      · simp [h]
    rw [heq] at hsplit
    omega

/-- C5 witness: the end-to-end scenario produces only non-empty text, and a
one-segment list whose recognition strips to empty yields an empty output. -/
theorem empty_text_segments_skipped_witness :
    ((TranscriptEntry.mk (19/10) 8 "hello").text ≠ "") ∧
      List.countP (fun c => strip ((fun _ _ => " ") (clip_start c) (clip_end 10 c)) == "")
          [Segment.mk 2 8] = 1 ∧
      (transcribeClips 10 (fun _ _ => " ") [Segment.mk 2 8]).length =
        ([Segment.mk 2 8] : List Segment).length - 1 := by
  have hcount : List.countP
      (fun c => strip ((fun _ _ => " ") (clip_start c) (clip_end 10 c)) == "")
      [Segment.mk 2 8] = 1 := by decide
  refine ⟨?_, hcount, empty_text_segments_skipped.2 10 (fun _ _ => " ") [Segment.mk 2 8] hcount⟩
  exact empty_text_segments_skipped.1 10 (fun _ _ => "hello") [Segment.mk 2 8]
    (TranscriptEntry.mk (19/10) 8 "hello")
    (by rw [transcribeClips_example]; exact List.mem_singleton_self _)

/-- C9: a segment starting at or before one second gets clip start 0, so its
emitted entry starts at exactly 0.9 seconds regardless of the detected start;
for the segment (0.1, 0.5) this makes the entry start exceed its end. -/
theorem early_segment_start_offset :
    (∀ (D : ℚ) (model : ℚ → ℚ → String) (clip : Segment), clip.start ≤ 1 →
        strip (model (clip_start clip) (clip_end D clip)) ≠ "" →
        transcribeClips D model [clip] =
          [TranscriptEntry.mk (9/10) clip.«end»
            (strip (model (clip_start clip) (clip_end D clip)))]) ∧
      transcribeClips 10 (fun _ _ => "hello") [Segment.mk (1/10) (1/2)] =
        [TranscriptEntry.mk (9/10) (1/2) "hello"] ∧
      (TranscriptEntry.mk (9/10) (1/2) "hello").«end» <
        (TranscriptEntry.mk (9/10) (1/2) "hello").start := by
  have hgen : ∀ (D : ℚ) (model : ℚ → ℚ → String) (clip : Segment), clip.start ≤ 1 →
      strip (model (clip_start clip) (clip_end D clip)) ≠ "" →
      transcribeClips D model [clip] =
        [TranscriptEntry.mk (9/10) clip.«end»
          (strip (model (clip_start clip) (clip_end D clip)))] := by
    intro D model clip h1 h2
    have h0 : clip_start clip = 0 := by rw [clip_start, if_neg (not_lt.mpr h1)]
    simp only [transcribeClips, if_pos h2]
    rw [h0]
    norm_num
  refine ⟨hgen, ?_, by norm_num⟩
  have h := hgen 10 (fun _ _ => "hello") (Segment.mk (1/10) (1/2)) (by norm_num) (by decide)
  rw [h]
  have hs : strip ((fun _ _ => "hello") (clip_start (Segment.mk (1/10) (1/2)))
      (clip_end 10 (Segment.mk (1/10) (1/2)))) = "hello" := by decide
  rw [hs]

/-- C9 witness: the general clause applied to the segment (0.1, 0.5). -/
theorem early_segment_start_offset_witness :
    ((Segment.mk (1/10) (1/2)).start ≤ 1) ∧
      transcribeClips 10 (fun _ _ => "hello") [Segment.mk (1/10) (1/2)] =
        [TranscriptEntry.mk (9/10) ((Segment.mk (1/10) (1/2)).«end»)
          (strip ((fun _ _ => "hello") (clip_start (Segment.mk (1/10) (1/2)))
            (clip_end 10 (Segment.mk (1/10) (1/2)))))] :=
  ⟨by norm_num, early_segment_start_offset.1 10 (fun _ _ => "hello")
    (Segment.mk (1/10) (1/2)) (by norm_num) (by decide)⟩

lemma string_foldl_append (l : List String) (init : String) :
    l.foldl (· ++ ·) init = init ++ String.join l := by
  induction l generalizing init with
  | nil =>
    show init = init ++ ""
    rw [String.append_empty]
  | cons a l ih =>
    show List.foldl (· ++ ·) (init ++ a) l = init ++ String.join (a :: l)
    rw [ih]
    have hj : String.join (a :: l) = a ++ String.join l := by
      show List.foldl (· ++ ·) ("" ++ a) l = a ++ String.join l
      rw [ih, String.empty_append]
    rw [hj, String.append_assoc]

lemma make_ass_foldl (trs : List TranscriptEntry) (init : String) :
    trs.foldl (fun sub tr => sub ++ dialogueLine tr) init =
      init ++ String.join (trs.map dialogueLine) := by
  induction trs generalizing init with
  | nil =>
    show init = init ++ String.join []
    rw [show String.join ([] : List String) = "" from rfl, String.append_empty]
  | cons a l ih =>
    show List.foldl _ (init ++ dialogueLine a) l =
      init ++ String.join (dialogueLine a :: List.map dialogueLine l)
    rw [ih]
    have hj : String.join (dialogueLine a :: List.map dialogueLine l) =
        dialogueLine a ++ String.join (List.map dialogueLine l) := by
      show List.foldl (· ++ ·) ("" ++ dialogueLine a) (List.map dialogueLine l) =
        dialogueLine a ++ String.join (List.map dialogueLine l)
      rw [string_foldl_append, String.empty_append]
    rw [hj, String.append_assoc]

/-- C8: subtitle generation is a pure function of the transcript: equal
transcripts give byte-identical output, and the output is exactly the fixed
header followed by one Dialogue line per entry, with no other dependence. -/
theorem make_ass_pure_function :
    (∀ t₁ t₂ : List TranscriptEntry, t₁ = t₂ → make_ass t₁ = make_ass t₂) ∧
      ∀ trs : List TranscriptEntry,
        make_ass trs = assHeader ++ String.join (trs.map dialogueLine) := by
  constructor
  · intro t₁ t₂ h
    rw [h]
  · intro trs
    rw [make_ass, make_ass_foldl]

/-- C8 witness: the purity clause applied to two identical one-entry
transcripts. -/
theorem make_ass_pure_function_witness :
    make_ass [TranscriptEntry.mk (19/10) 8 "hello"] =
      make_ass [TranscriptEntry.mk (19/10) 8 "hello"] :=
  make_ass_pure_function.1 [TranscriptEntry.mk (19/10) 8 "hello"]
    [TranscriptEntry.mk (19/10) 8 "hello"] rfl
